import Mathlib

/-!
Verification of the incremental playlist-sync script
(`spotify_playlist_generator`): a shallow embedding of `sync.py` and
`sheet_logging.py` together with proofs of the behavioural properties of
the core logic (cursor diffing, per-file resolution, playlist naming and
de-duplication, spreadsheet upsert and best-effort logging).
-/

namespace SpotifySync

/-- A parsed track record `(artist, title, marker)`; `marker` is the
verbatim ExtVDJ source line (`s[2]` in the Python tuples). -/
structure TrackRecord where
  artist : String
  title : String
  marker : String
deriving DecidableEq, Repr

/-- Embedding of `sync.py::process_new_songs`.  The stored cursor
`last_extvdj_line` is `Option String`; Python truthiness makes both
`None` and the empty string fall through to returning all of `songs`.
`[s[2] for s in songs].index(x)` is the first index whose marker equals
the cursor; on `ValueError` (no match) the full list is returned. -/
def process_new_songs (songs : List TrackRecord) (last_extvdj_line : Option String) :
    List TrackRecord :=
  match last_extvdj_line with
  | none => songs
  | some m =>
      if m = "" then songs
      else
        match songs.findIdx? (fun s => s.marker = m) with
        | some last_index => songs.drop (last_index + 1)
        | none => songs

/-- `findIdx?` returns the first index satisfying the predicate. -/
theorem findIdx?_eq_some_of_first {α : Type} (p : α → Bool) (l : List α)
    (i : Nat) (x : α) (hx : l.get? i = some x) (hp : p x = true)
    (hfirst : ∀ j y, j < i → l.get? j = some y → p y = false) :
    l.findIdx? p = some i := by
  induction l generalizing i with
  | nil => simp at hx
  | cons z zs ih =>
      cases i with
      | zero =>
          simp only [List.get?] at hx
          cases hx
          simp [List.findIdx?_cons, hp]
      | succ n =>
          have hz : p z = false := hfirst 0 z (Nat.succ_pos n) rfl
          have hn : zs.get? n = some x := hx
          have hfn : ∀ j y, j < n → zs.get? j = some y → p y = false := by
            intro j y hj hy
            exact hfirst (j + 1) y (Nat.succ_lt_succ hj) hy
          simp [List.findIdx?_cons, hz, ih n hn hfn]

/-- `findIdx?` misses when no element satisfies the predicate. -/
theorem findIdx?_eq_none_of_all {α : Type} (p : α → Bool) (l : List α)
    (h : ∀ x ∈ l, p x = false) : l.findIdx? p = none := by
  induction l with
  | nil => rfl
  | cons x xs ih =>
      have hx : p x = false := h x (List.mem_cons_self x xs)
      simp [List.findIdx?_cons, hx, ih (fun y hy => h y (List.mem_cons_of_mem x hy))]

/-- C1: with a non-empty cursor equal to the marker of the first matching
element at index `i`, `process_new_songs` returns `songs.drop (i + 1)`
(the suffix after that match); when the first match is the last element
the result is empty. -/
theorem process_new_songs_matched (songs : List TrackRecord) (m : String) (i : Nat)
    (s : TrackRecord) (hm : m ≠ "") (hs : songs.get? i = some s)
    (hmark : s.marker = m)
    (hfirst : ∀ j s', j < i → songs.get? j = some s' → s'.marker ≠ m) :
    process_new_songs songs (some m) = songs.drop (i + 1) ∧
      (i + 1 = songs.length → process_new_songs songs (some m) = []) := by
  have hidx : songs.findIdx? (fun s => s.marker = m) = some i := by
    apply findIdx?_eq_some_of_first _ _ _ s hs
    · simp [hmark]
    · intro j y hj hy
      simp [hfirst j y hj hy]
  have hmain : process_new_songs songs (some m) = songs.drop (i + 1) := by
    simp [process_new_songs, hm, hidx]
  refine ⟨hmain, fun hlen => ?_⟩
  rw [hmain, hlen]
  exact List.drop_length songs

/-- Witness for C1 at a concrete three-element file with the cursor on
the middle marker. -/
theorem process_new_songs_matched_witness :
    process_new_songs
        [⟨"A", "T1", "m1"⟩, ⟨"B", "T2", "m2"⟩, ⟨"C", "T3", "m3"⟩] (some "m2") =
      [⟨"C", "T3", "m3"⟩] := by
  have h := process_new_songs_matched
      [⟨"A", "T1", "m1"⟩, ⟨"B", "T2", "m2"⟩, ⟨"C", "T3", "m3"⟩] "m2" 1
      ⟨"B", "T2", "m2"⟩ (by decide) (by decide) (by decide)
      (by
        intro j s' hj hs'
        interval_cases j
        simp at hs'
        subst hs'
        decide)
  exact h.1

/-- C2: an absent (`None`) or empty cursor leaves the song list unchanged. -/
theorem process_new_songs_no_cursor (songs : List TrackRecord) :
    process_new_songs songs none = songs ∧
      process_new_songs songs (some "") = songs := by
  exact ⟨rfl, by simp [process_new_songs]⟩

/-- C3: a non-empty cursor matching no marker falls back to returning the
whole file (the `ValueError` branch). -/
theorem process_new_songs_unmatched (songs : List TrackRecord) (m : String)
    (hm : m ≠ "") (h : ∀ s ∈ songs, s.marker ≠ m) :
    process_new_songs songs (some m) = songs := by
  have hidx : songs.findIdx? (fun s => s.marker = m) = none := by
    apply findIdx?_eq_none_of_all
    intro x hx
    simp [h x hx]
  simp [process_new_songs, hm, hidx]

/-- Witness for C3: an unknown cursor reprocesses the whole file. -/
theorem process_new_songs_unmatched_witness :
    process_new_songs
        [⟨"A", "T1", "m1"⟩, ⟨"B", "T2", "m2"⟩] (some "unknown") =
      [⟨"A", "T1", "m1"⟩, ⟨"B", "T2", "m2"⟩] := by
  exact process_new_songs_unmatched _ "unknown" (by decide)
    (by intro s hs; fin_cases hs <;> decide)

/-! ## Spreadsheet readiness poll (`wait_for_spreadsheet_ready`) -/

/-- The `for attempt in range(1, retries + 1)` loop of
`wait_for_spreadsheet_ready`: `fetch k` tells whether the metadata fetch
on the (1-based) attempt `k` succeeds.  The first component is the
returned boolean, the second the number of fetch attempts made.
`made` counts the attempts already spent. -/
def wait_ready_loop (fetch : Nat → Bool) : Nat → Nat → Bool × Nat
  | 0, made => (false, made)
  | n + 1, made =>
      if fetch (made + 1) then (true, made + 1)
      else wait_ready_loop fetch n (made + 1)

/-- Embedding of `sync.py::wait_for_spreadsheet_ready` (default
`retries = 5`). -/
def wait_for_spreadsheet_ready (fetch : Nat → Bool) (retries : Nat := 5) :
    Bool × Nat :=
  wait_ready_loop fetch retries 0

theorem wait_ready_loop_attempts_le (fetch : Nat → Bool) (n made : Nat) :
    (wait_ready_loop fetch n made).2 ≤ made + n := by
  induction n generalizing made with
  | zero => simp [wait_ready_loop]
  | succ k ih =>
      by_cases h : fetch (made + 1) = true
      · simp only [wait_ready_loop, h, if_true]
        omega
      · have hih := ih (made + 1)
        simp only [Bool.not_eq_true] at h
        simp only [wait_ready_loop, h, Bool.false_eq_true, if_false]
        omega

theorem wait_ready_loop_first_success (fetch : Nat → Bool) (n made k : Nat)
    (hk1 : made < k) (hk2 : k ≤ made + n) (hsucc : fetch k = true)
    (hfail : ∀ j, made < j → j < k → fetch j = false) :
    wait_ready_loop fetch n made = (true, k) := by
  induction n generalizing made with
  | zero => omega
  | succ m ih =>
      by_cases h : fetch (made + 1) = true
      · have hkm : k = made + 1 := by
          by_contra hne
          have : made + 1 < k := by omega
          have := hfail (made + 1) (by omega) this
          simp [this] at h
        simp [wait_ready_loop, h, hkm]
      · have hkm : made + 1 < k := by
          rcases Nat.lt_or_ge (made + 1) k with h1 | h1
          · exact h1
          · have : k = made + 1 := by omega
            rw [this] at hsucc
            simp [hsucc] at h
        simp only [Bool.not_eq_true] at h
        simp only [wait_ready_loop, h, if_false]
        exact ih (made + 1) hkm (by omega) (fun j hj1 hj2 => hfail j (by omega) hj2)

theorem wait_ready_loop_all_fail (fetch : Nat → Bool) (n made : Nat)
    (hfail : ∀ j, made < j → j ≤ made + n → fetch j = false) :
    wait_ready_loop fetch n made = (false, made + n) := by
  induction n generalizing made with
  | zero => simp [wait_ready_loop]
  | succ m ih =>
      have h1 : fetch (made + 1) = false := hfail (made + 1) (by omega) (by omega)
      simp only [wait_ready_loop, h1, if_false]
      have hrec := ih (made + 1) (fun j hj1 hj2 => hfail j (by omega) (by omega))
      have harith : made + (m + 1) = made + 1 + m := by omega
      rw [harith]
      exact hrec

/-- C8: the readiness poll makes at most 5 metadata-fetch attempts;
with the first successful attempt at index `k` (1-based, `k ≤ 5`, all
earlier attempts failing) it returns `true` after exactly `k` attempts;
when all 5 attempts fail it returns `false` after exactly 5 attempts. -/
theorem wait_for_spreadsheet_ready_spec (fetch : Nat → Bool) (k : Nat) :
    (wait_for_spreadsheet_ready fetch 5).2 ≤ 5 ∧
      (1 ≤ k → k ≤ 5 → fetch k = true →
        (∀ j, 1 ≤ j → j < k → fetch j = false) →
        wait_for_spreadsheet_ready fetch 5 = (true, k)) ∧
      ((∀ j, 1 ≤ j → j ≤ 5 → fetch j = false) →
        wait_for_spreadsheet_ready fetch 5 = (false, 5)) := by
  refine ⟨?_, ?_, ?_⟩
  · simpa using wait_ready_loop_attempts_le fetch 5 0
  · intro h1 h2 h3 h4
    exact wait_ready_loop_first_success fetch 5 0 k (by omega) (by omega) h3
      (fun j hj1 hj2 => h4 j (by omega) hj2)
  · intro h
    simpa [wait_for_spreadsheet_ready] using
      wait_ready_loop_all_fail fetch 5 0 (fun j hj1 hj2 => h j (by omega) (by omega))

/-- Witness for C8: a poll that succeeds on the third attempt returns
`true` after exactly 3 attempts. -/
theorem wait_for_spreadsheet_ready_spec_witness :
    wait_for_spreadsheet_ready (fun n => decide (n = 3)) 5 = (true, 3) := by
  have h := wait_for_spreadsheet_ready_spec (fun n => decide (n = 3)) 3
  exact h.2.1 (by decide) (by decide) (by decide)
    (by intro j h1 h2; interval_cases j <;> decide)

/-! ## Per-file resolution loop (`process_file`, sync.py lines 350-366) -/

/-- Accumulators of the resolution loop: `found_uris`, `matched_songs`,
`matched_extvdj_lines` and `unfound`, in loop order. -/
structure ResolveAcc where
  found_uris : List String
  matched_songs : List (String × String)
  matched_extvdj_lines : List String
  unfound : List TrackRecord
deriving DecidableEq, Repr

/-- Python truthiness of the `uri` returned by `spotify.search_track`:
`None` and the empty string are falsy. -/
def uri_truthy : Option String → Bool
  | none => false
  | some u => u ≠ ""

/-- One iteration of the `for artist, title, extvdj_line in new_songs`
loop. -/
def resolve_step (search : String → String → Option String) (acc : ResolveAcc)
    (r : TrackRecord) : ResolveAcc :=
  match search r.artist r.title with
  | some uri =>
      if uri = "" then { acc with unfound := acc.unfound ++ [r] }
      else
        { acc with
          found_uris := acc.found_uris ++ [uri],
          matched_songs := acc.matched_songs ++ [(r.artist, r.title)],
          matched_extvdj_lines := acc.matched_extvdj_lines ++ [r.marker] }
  | none => { acc with unfound := acc.unfound ++ [r] }

/-- Embedding of the resolution loop of `process_file`. -/
def resolve_new_songs (search : String → String → Option String)
    (new_songs : List TrackRecord) : ResolveAcc :=
  new_songs.foldl (resolve_step search) ⟨[], [], [], []⟩

theorem resolve_foldl_spec (search : String → String → Option String)
    (new_songs : List TrackRecord) (acc : ResolveAcc) :
    new_songs.foldl (resolve_step search) acc =
      { found_uris := acc.found_uris ++
          (new_songs.filter (fun r => uri_truthy (search r.artist r.title))).map
            (fun r => (search r.artist r.title).getD ""),
        matched_songs := acc.matched_songs ++
          (new_songs.filter (fun r => uri_truthy (search r.artist r.title))).map
            (fun r => (r.artist, r.title)),
        matched_extvdj_lines := acc.matched_extvdj_lines ++
          (new_songs.filter (fun r => uri_truthy (search r.artist r.title))).map
            (fun r => r.marker),
        unfound := acc.unfound ++
          new_songs.filter (fun r => !uri_truthy (search r.artist r.title)) } := by
  induction new_songs generalizing acc with
  | nil => simp
  | cons r rest ih =>
      simp only [List.foldl_cons]
      rw [ih]
      cases h : search r.artist r.title with
      | none => simp [resolve_step, h, uri_truthy]
      | some uri =>
          by_cases hu : uri = ""
          · subst hu
            simp [resolve_step, h, uri_truthy]
          · simp [resolve_step, h, uri_truthy, hu]

theorem length_filter_partition {α : Type} (p : α → Bool) (l : List α) :
    (l.filter p).length + (l.filter (fun a => !p a)).length = l.length := by
  induction l with
  | nil => rfl
  | cons x xs ih =>
      cases h : p x with
      | true =>
          simp only [List.filter_cons, h, Bool.not_true, Bool.false_eq_true,
            if_true, if_false, List.length_cons]
          omega
      | false =>
          simp only [List.filter_cons, h, Bool.not_false, Bool.false_eq_true,
            if_true, if_false, List.length_cons]
          omega

/-- C9: the resolution loop classifies every record of `new_songs` into
exactly one of `matched_songs` / `unfound`; found URIs correspond
pairwise in order to matched songs (equal lengths, both projected from
the in-order sublist of resolvable records), and matched plus unfound
counts sum to the number of records, each list in original file order. -/
theorem resolve_new_songs_partition (search : String → String → Option String)
    (new_songs : List TrackRecord) :
    (resolve_new_songs search new_songs).found_uris.length =
        (resolve_new_songs search new_songs).matched_songs.length ∧
      (resolve_new_songs search new_songs).matched_songs.length +
          (resolve_new_songs search new_songs).unfound.length =
        new_songs.length ∧
      (resolve_new_songs search new_songs).found_uris =
        (new_songs.filter (fun r => uri_truthy (search r.artist r.title))).map
          (fun r => (search r.artist r.title).getD "") ∧
      (resolve_new_songs search new_songs).matched_songs =
        (new_songs.filter (fun r => uri_truthy (search r.artist r.title))).map
          (fun r => (r.artist, r.title)) ∧
      (resolve_new_songs search new_songs).unfound =
        new_songs.filter (fun r => !uri_truthy (search r.artist r.title)) := by
  have h := resolve_foldl_spec search new_songs ⟨[], [], [], []⟩
  unfold resolve_new_songs
  rw [h]
  refine ⟨by simp, ?_, by simp, by simp, by simp⟩
  simp only [List.nil_append, List.length_map]
  exact length_filter_partition _ new_songs

/-! ## Playlist naming and per-period playlist creation -/

/-- `os.path.basename`: the part of the path after the last `/`. -/
def basename (filename : String) : String :=
  String.mk (filename.data.foldl (fun acc c => if c = '/' then [] else acc ++ [c]) [])

/-- Embedding of `sync.py::extract_date_from_filename`: the first ten
characters of the basename whenever the basename is at least ten
characters long with `-` at indices 4 and 7, else the basename. -/
def extract_date_from_filename (filename : String) : String :=
  let base := basename filename
  if 10 ≤ base.data.length ∧ base.data.get? 4 = some '-' ∧
      base.data.get? 7 = some '-' then
    String.mk (base.data.take 10)
  else base

/-- The shape test of `extract_date_from_filename` as a boolean. -/
def dash_shape (s : String) : Bool :=
  decide (10 ≤ s.data.length ∧ s.data.get? 4 = some '-' ∧ s.data.get? 7 = some '-')

/-- Spec-side predicate: the string starts with a literal `YYYY-MM-DD`
date — characters 0-3, 5-6 and 8-9 are decimal digits and characters 4
and 7 are `-`. -/
def startsWithDate (s : String) : Bool :=
  (List.range 10).all (fun i =>
    match s.data.get? i with
    | some c => if i = 4 ∨ i = 7 then c = '-' else c.isDigit
    | none => false)

theorem startsWithDate_shape (s : String) (h : startsWithDate s = true) :
    10 ≤ s.data.length ∧ s.data.get? 4 = some '-' ∧ s.data.get? 7 = some '-' := by
  have hall := List.all_eq_true.mp h
  have h4 := hall 4 (by decide)
  have h7 := hall 7 (by decide)
  have h9 := hall 9 (by decide)
  refine ⟨?_, ?_, ?_⟩
  · cases h9c : s.data.get? 9 with
    | none => rw [h9c] at h9; simp at h9
    | some c =>
        obtain ⟨hlt, -⟩ := List.get?_eq_some.mp h9c
        omega
  · cases h4c : s.data.get? 4 with
    | none => rw [h4c] at h4; simp at h4
    | some c =>
        rw [h4c] at h4
        simp at h4
        rw [h4]
  · cases h7c : s.data.get? 7 with
    | none => rw [h7c] at h7; simp at h7
    | some c =>
        rw [h7c] at h7
        simp at h7
        rw [h7]

/-- The external streaming-service collaborator used by
`create_spotify_playlist_for_file`: playlist lookup by name and playlist
creation (both returning a playlist id when they produce one). -/
structure SpotifyEnv where
  find_playlist_by_name : String → Option String
  create_playlist : String → Option String

/-- Observable outcome of `create_spotify_playlist_for_file`: which
playlist (by name) was targeted, the id returned, and exactly which
track URIs were passed to `add_tracks_to_specific_playlist`. -/
inductive PlaylistOutcome where
  | skipped : PlaylistOutcome
  | updatedExisting (name pid : String) (added : List String) : PlaylistOutcome
  | createFailed (name : String) : PlaylistOutcome
  | createdNew (name pid : String) (added : List String) : PlaylistOutcome
deriving DecidableEq, Repr

/-- The playlist name this outcome was addressed to, if any. -/
def PlaylistOutcome.targetName : PlaylistOutcome → Option String
  | .skipped => none
  | .updatedExisting name _ _ => some name
  | .createFailed name => some name
  | .createdNew name _ _ => some name

/-- Embedding of `list(dict.fromkeys(found_uris))` (sync.py line 313):
insert keys left to right, keeping the position of the first insertion. -/
def dedup_first_occurrence (l : List String) : List String :=
  l.foldl (fun acc x => if x ∈ acc then acc else acc ++ [x]) []

/-- Spec-side stable de-duplication: keep each identifier's first
occurrence, in the original order, dropping its later duplicates. -/
def stable_dedup : List String → List String
  | [] => []
  | x :: xs => x :: stable_dedup (xs.filter (fun y => y ≠ x))
termination_by l => l.length
decreasing_by
  simp only [List.length_cons]
  exact Nat.lt_succ_of_le (List.length_filter_le _ _)

theorem dedup_foldl_eq (l acc : List String) :
    l.foldl (fun acc x => if x ∈ acc then acc else acc ++ [x]) acc
      = acc ++ stable_dedup (l.filter (fun y => y ∉ acc)) := by
  induction l generalizing acc with
  | nil => simp [stable_dedup]
  | cons x xs ih =>
      by_cases hx : x ∈ acc
      · rw [List.foldl_cons]
        simp only [if_pos hx]
        rw [ih]
        have hfx : (x :: xs).filter (fun y => decide (y ∉ acc))
            = xs.filter (fun y => decide (y ∉ acc)) := by
          simp [List.filter_cons, hx]
        rw [hfx]
      · rw [List.foldl_cons]
        simp only [if_neg hx]
        rw [ih]
        have hfe : xs.filter (fun y => decide (y ∉ acc ++ [x]))
            = (xs.filter (fun y => decide (y ∉ acc))).filter
                (fun y => decide (y ≠ x)) := by
          rw [List.filter_filter]
          apply List.filter_congr
          intro y _
          by_cases h1 : y = x
          · subst h1
            simp
          · by_cases h2 : y ∈ acc <;> simp [h1, h2]
        have hcons : (x :: xs).filter (fun y => decide (y ∉ acc))
            = x :: xs.filter (fun y => decide (y ∉ acc)) := by
          simp [List.filter_cons, hx]
        rw [hcons, hfe]
        have hsd : stable_dedup (x :: xs.filter (fun y => decide (y ∉ acc)))
            = x :: stable_dedup ((xs.filter (fun y => decide (y ∉ acc))).filter
                (fun y => decide (y ≠ x))) := by
          simp [stable_dedup]
        rw [hsd]
        simp

theorem dedup_eq_stable (l : List String) :
    dedup_first_occurrence l = stable_dedup l := by
  have h := dedup_foldl_eq l []
  simpa [dedup_first_occurrence, List.filter_eq_self.mpr] using h

/-- Embedding of `sync.py::create_spotify_playlist_for_file`
(the exception-free executions): skip on an empty batch; add the raw
batch to an existing playlist with the derived name; otherwise create
the playlist and add `list(dict.fromkeys(found_uris))`.  A falsy id
from `create_playlist` is the `if not playlist_id` failure branch. -/
def create_spotify_playlist_for_file (env : SpotifyEnv) (date_str : String)
    (found_uris : List String) : PlaylistOutcome :=
  if found_uris.isEmpty then .skipped
  else
    let playlist_name := date_str ++ " History Set"
    match env.find_playlist_by_name playlist_name with
    | some pid => .updatedExisting playlist_name pid found_uris
    | none =>
        match env.create_playlist playlist_name with
        | none => .createFailed playlist_name
        | some pid =>
            if pid = "" then .createFailed playlist_name
            else .createdNew playlist_name pid (dedup_first_occurrence found_uris)

/-- C5 counterexample: `"abcd-ef-ghij"` does not start with a
`YYYY-MM-DD` date, yet `extract_date_from_filename` truncates it to its
first ten characters instead of returning the raw filename; and
`"logs/plain.m3u"`, also undated, yields its basename `"plain.m3u"`,
not the raw filename. -/
theorem extract_date_counterexample :
    (extract_date_from_filename "abcd-ef-ghij" = "abcd-ef-gh" ∧
      startsWithDate "abcd-ef-ghij" = false ∧
      ("abcd-ef-gh" : String) ≠ "abcd-ef-ghij") ∧
      (extract_date_from_filename "logs/plain.m3u" = "plain.m3u" ∧
        startsWithDate "logs/plain.m3u" = false ∧
        ("plain.m3u" : String) ≠ "logs/plain.m3u") := by
  refine ⟨⟨?_, by decide, by decide⟩, ⟨?_, by decide, by decide⟩⟩
  · decide
  · decide

/-- C5 (amended): the per-period playlist name is
`"<date> History Set"`, where `<date>` is the first ten characters of
the filename's basename whenever the basename is at least ten
characters long with `-` at indices 4 and 7 (no digit check) — a
condition that in particular holds whenever the basename starts with a
genuine `YYYY-MM-DD` date — and otherwise the basename itself. -/
theorem extract_date_amended (filename : String) (env : SpotifyEnv)
    (uris : List String) :
    (dash_shape (basename filename) = true →
      extract_date_from_filename filename
        = String.mk ((basename filename).data.take 10)) ∧
      (dash_shape (basename filename) = false →
        extract_date_from_filename filename = basename filename) ∧
      (startsWithDate (basename filename) = true →
        dash_shape (basename filename) = true) ∧
      (uris ≠ [] →
        (create_spotify_playlist_for_file env
            (extract_date_from_filename filename) uris).targetName
          = some (extract_date_from_filename filename ++ " History Set")) := by
  refine ⟨?_, ?_, ?_, ?_⟩
  · intro h
    have hs := of_decide_eq_true h
    simp only [extract_date_from_filename]
    rw [if_pos hs]
  · intro h
    have hs := of_decide_eq_false h
    simp only [extract_date_from_filename]
    rw [if_neg hs]
  · intro h
    exact decide_eq_true (startsWithDate_shape _ h)
  · intro h
    have hie : uris.isEmpty = false := by
      cases uris with
      | nil => exact absurd rfl h
      | cons a l => rfl
    simp only [create_spotify_playlist_for_file, hie, Bool.false_eq_true,
      if_false]
    cases env.find_playlist_by_name (extract_date_from_filename filename ++
        " History Set") with
    | some pid => rfl
    | none =>
        cases env.create_playlist (extract_date_from_filename filename ++
            " History Set") with
        | none => rfl
        | some pid =>
            by_cases hp : pid = "" <;> simp [hp, PlaylistOutcome.targetName]

/-- Witness for C5 (amended): a dash-shaped but undated filename is
truncated to its first ten characters, an undated short one is passed
through whole, a genuinely dated one satisfies the dash shape, and the
playlist name is the derived date plus `" History Set"`. -/
theorem extract_date_amended_witness :
    extract_date_from_filename "abcd-ef-ghij.m3u"
        = String.mk ((basename "abcd-ef-ghij.m3u").data.take 10) ∧
      extract_date_from_filename "plain.m3u" = basename "plain.m3u" ∧
      dash_shape (basename "2023-01-01 set.m3u") = true ∧
      (create_spotify_playlist_for_file ⟨fun _ => none, fun _ => some "P"⟩
          (extract_date_from_filename "2023-01-01 set.m3u") ["u"]).targetName
        = some (extract_date_from_filename "2023-01-01 set.m3u" ++
            " History Set") := by
  have h1 := extract_date_amended "abcd-ef-ghij.m3u"
    ⟨fun _ => none, fun _ => some "P"⟩ ["u"]
  have h2 := extract_date_amended "plain.m3u"
    ⟨fun _ => none, fun _ => some "P"⟩ ["u"]
  have h3 := extract_date_amended "2023-01-01 set.m3u"
    ⟨fun _ => none, fun _ => some "P"⟩ ["u"]
  exact ⟨h1.1 (by decide), h2.2.1 (by decide), h3.2.2.1 (by decide),
    h3.2.2.2 (by decide)⟩

/-- C6: when a new per-period playlist is created, the URIs added to it
are the batch with later duplicates dropped — each identifier's first
occurrence survives, in the batch's original order. -/
theorem created_playlist_added_dedup (env : SpotifyEnv) (date_str : String)
    (found_uris : List String) (pid : String) (hne : found_uris ≠ [])
    (hfind : env.find_playlist_by_name (date_str ++ " History Set") = none)
    (hcreate : env.create_playlist (date_str ++ " History Set") = some pid)
    (hpid : pid ≠ "") :
    create_spotify_playlist_for_file env date_str found_uris
      = PlaylistOutcome.createdNew (date_str ++ " History Set") pid
          (stable_dedup found_uris) := by
  have hie : found_uris.isEmpty = false := by
    cases found_uris with
    | nil => exact absurd rfl hne
    | cons a l => rfl
  simp only [create_spotify_playlist_for_file, hie, Bool.false_eq_true,
    if_false, hfind, hcreate, if_neg hpid]
  rw [dedup_eq_stable]

/-- Witness for C6 at the batch `["u1", "u2", "u1"]`: the created
playlist receives the de-duplicated batch. -/
theorem created_playlist_added_dedup_witness :
    create_spotify_playlist_for_file ⟨fun _ => none, fun _ => some "P"⟩
        "2023-01-01" ["u1", "u2", "u1"]
      = PlaylistOutcome.createdNew ("2023-01-01" ++ " History Set") "P"
          (stable_dedup ["u1", "u2", "u1"]) :=
  created_playlist_added_dedup _ _ _ _ (by decide) rfl rfl (by decide)

/-! ## The "Processed" sheet: summary upsert and processed-map loading -/

/-- A spreadsheet cell: a string, or `none` for Python's `None`. -/
abbrev Cell := Option String

/-- A spreadsheet row as returned by `read_values` / passed to
`append_values` and `write_values`. -/
abbrev Row := List Cell

/-- `new_songs[-1][2] if new_songs else last_extvdj_line`
(sync.py line 223). -/
def last_logged_extvdj_line (new_songs : List TrackRecord)
    (last_extvdj_line : Cell) : Cell :=
  match new_songs.getLast? with
  | some s => some s.marker
  | none => last_extvdj_line

/-- The summary row written to the "Processed" tab (sync.py lines
224-228): `[filename, playlist_id, line]` when `playlist_id` is truthy,
else the two-cell `[filename, line]`. -/
def updated_row (filename : String) (playlist_id : Option String)
    (line : Cell) : Row :=
  match playlist_id with
  | some pid =>
      if pid = "" then [some filename, line]
      else [some filename, some pid, line]
  | none => [some filename, line]

/-- Python's `row[0]` on a (non-empty) sheet row. -/
def row_first_cell (r : Row) : Cell := r.getD 0 none

/-- The comprehension `[row[0] for row in all_rows]` of sync.py line
234: `row[0]` raises `IndexError` on an empty row, aborting the whole
comprehension (`none`). -/
def rows_first_cells : List Row → Option (List Cell)
  | [] => some []
  | r :: rest =>
      match r.get? 0 with
      | none => none
      | some c =>
          match rows_first_cells rest with
          | none => none
          | some cs => some (c :: cs)

/-- The summary write of `log_to_sheets` (sync.py lines 222-250, before
the sort call): build `filenames`, then overwrite the first row whose
first cell equals the filename in place, else append the summary row.
`none` is the `IndexError` raised by `row[0]` on an empty sheet row —
the surrounding `try/except` then skips the write entirely. -/
def log_processed_summary (filename : String) (playlist_id : Option String)
    (new_songs : List TrackRecord) (last_extvdj_line : Cell)
    (all_rows : List Row) : Option (List Row) :=
  match rows_first_cells all_rows with
  | none => none
  | some filenames =>
      let row := updated_row filename playlist_id
        (last_logged_extvdj_line new_songs last_extvdj_line)
      match filenames.findIdx? (fun c => c = some filename) with
      | some i => some (all_rows.set i row)
      | none => some (all_rows ++ [row])

theorem rows_first_cells_of_ne_nil (l : List Row) (h : ∀ r ∈ l, r ≠ []) :
    rows_first_cells l = some (l.map row_first_cell) := by
  induction l with
  | nil => rfl
  | cons r rest ih =>
      have hr : r ≠ [] := h r (List.mem_cons_self r rest)
      cases r with
      | nil => exact absurd rfl hr
      | cons c cs =>
          simp only [rows_first_cells, List.get?,
            ih (fun r' hr' => h r' (List.mem_cons_of_mem _ hr')), List.map_cons]
          rfl

theorem rows_first_cells_of_mem_nil (l : List Row) (r0 : Row) (hmem : r0 ∈ l)
    (h0 : r0 = []) : rows_first_cells l = none := by
  induction l with
  | nil => simp at hmem
  | cons r rest ih =>
      rcases List.mem_cons.mp hmem with heq | hmem'
      · subst heq
        subst h0
        rfl
      · cases hg : r[0]? with
        | none => simp [rows_first_cells, hg]
        | some c => simp [rows_first_cells, hg, ih hmem']

/-- C4: on sheets with no empty row the summary write is an upsert
keyed by filename — with the first matching row at index `i` the row
is overwritten in place at `i`; with no matching row the summary row is
appended; an empty sheet row makes `row[0]` raise and the whole write
is skipped; and the marker cell is the last new song's marker when
`new_songs` is non-empty, else the previously stored cursor. -/
theorem log_processed_summary_upsert (all_rows : List Row) (filename : String)
    (playlist_id : Option String) (new_songs : List TrackRecord) (last : Cell) :
    (∀ i r, (∀ r' ∈ all_rows, r' ≠ []) → all_rows.get? i = some r →
      row_first_cell r = some filename →
      (∀ j r', j < i → all_rows.get? j = some r' →
        row_first_cell r' ≠ some filename) →
      log_processed_summary filename playlist_id new_songs last all_rows
        = some (all_rows.set i
            (updated_row filename playlist_id
              (last_logged_extvdj_line new_songs last)))) ∧
      ((∀ r' ∈ all_rows, r' ≠ []) →
        (∀ r ∈ all_rows, row_first_cell r ≠ some filename) →
        log_processed_summary filename playlist_id new_songs last all_rows
          = some (all_rows ++
              [updated_row filename playlist_id
                (last_logged_extvdj_line new_songs last)])) ∧
      (∀ r0 ∈ all_rows, r0 = [] →
        log_processed_summary filename playlist_id new_songs last all_rows
          = none) ∧
      (∀ s, new_songs.getLast? = some s →
        last_logged_extvdj_line new_songs last = some s.marker) ∧
      (new_songs = [] → last_logged_extvdj_line new_songs last = last) := by
  refine ⟨?_, ?_, ?_, ?_, ?_⟩
  · intro i r hne hr hmatch hfirst
    have hcells := rows_first_cells_of_ne_nil all_rows hne
    have hidx : (all_rows.map row_first_cell).findIdx?
        (fun c => c = some filename) = some i := by
      apply findIdx?_eq_some_of_first _ _ _ (row_first_cell r)
      · rw [List.get?_map, hr]
        rfl
      · simp [hmatch]
      · intro j y hj hy
        rw [List.get?_map] at hy
        cases hget : all_rows.get? j with
        | none => rw [hget] at hy; simp at hy
        | some r' =>
            rw [hget] at hy
            simp only [Option.map_some', Option.some.injEq] at hy
            subst hy
            simp [hfirst j r' hj hget]
    simp [log_processed_summary, hcells, hidx]
  · intro hne hnone
    have hcells := rows_first_cells_of_ne_nil all_rows hne
    have hidx : (all_rows.map row_first_cell).findIdx?
        (fun c => c = some filename) = none := by
      apply findIdx?_eq_none_of_all
      intro x hx
      obtain ⟨r, hr, hrx⟩ := List.mem_map.mp hx
      subst hrx
      simp [hnone r hr]
    simp [log_processed_summary, hcells, hidx]
  · intro r0 hmem h0
    have hcells := rows_first_cells_of_mem_nil all_rows r0 hmem h0
    simp [log_processed_summary, hcells]
  · intro s hlast
    simp [last_logged_extvdj_line, hlast]
  · intro hnil
    subst hnil
    rfl

/-- Witness for C4: with "Processed" rows for `f1` and `f2` (both
non-empty), logging `f2` with one processed song and a playlist id
overwrites the second row in place with the song's marker. -/
theorem log_processed_summary_upsert_witness :
    log_processed_summary "f2" (some "P") [⟨"A", "T", "m9"⟩] (some "m0")
        [[some "f1", some "p1", some "m1"], [some "f2", some "p2", some "m2"]]
      = some [[some "f1", some "p1", some "m1"],
          [some "f2", some "P", some "m9"]] := by
  have h := log_processed_summary_upsert
      [[some "f1", some "p1", some "m1"], [some "f2", some "p2", some "m2"]]
      "f2" (some "P") [⟨"A", "T", "m9"⟩] (some "m0")
  have h1 := h.1 1 [some "f2", some "p2", some "m2"]
    (by intro r' hr'; fin_cases hr' <;> decide)
    (by decide) (by decide)
    (by
      intro j r' hj hr'
      interval_cases j
      simp at hr'
      subst hr'
      decide)
  rw [h1]
  decide

/-- Python dict assignment `d[k] = v`: overwrite the (unique) existing
entry of the key in place, else append the new entry at the end
(insertion order kept). -/
def dict_insert : List (Cell × Cell) → Cell → Cell → List (Cell × Cell)
  | [], k, v => [(k, v)]
  | p :: ps, k, v => if p.1 = k then (k, v) :: ps else p :: dict_insert ps k v

/-- Python dict lookup `d.get(k)`. -/
def dict_get? (m : List (Cell × Cell)) (k : Cell) : Option Cell :=
  (m.find? (fun p => p.1 = k)).map (fun p => p.2)

/-- Embedding of `sync.py::load_processed_map`:
`{row[0]: row[2] for row in processed_rows if len(row) >= 3}` with
Python's later-binding-wins dict-comprehension semantics. -/
def load_processed_map (rows : List Row) : List (Cell × Cell) :=
  (rows.filter (fun r => decide (3 ≤ r.length))).foldl
    (fun m r => dict_insert m (r.getD 0 none) (r.getD 2 none)) []

theorem dict_get?_insert_same (m : List (Cell × Cell)) (k v : Cell) :
    dict_get? (dict_insert m k v) k = some v := by
  induction m with
  | nil => simp [dict_insert, dict_get?]
  | cons p ps ih =>
      by_cases hpk : p.1 = k
      · simp only [dict_insert, if_pos hpk, dict_get?]
        rw [List.find?_cons_of_pos _ (by simp)]
        rfl
      · simp only [dict_insert, if_neg hpk, dict_get?] at ih ⊢
        rw [List.find?_cons_of_neg _ (by simp [hpk])]
        exact ih

theorem dict_get?_insert_other (m : List (Cell × Cell)) (k k' v : Cell)
    (hk : k' ≠ k) : dict_get? (dict_insert m k' v) k = dict_get? m k := by
  induction m with
  | nil =>
      simp only [dict_insert, dict_get?, List.find?_nil]
      rw [List.find?_cons_of_neg _ (by simp [hk])]
      rfl
  | cons p ps ih =>
      by_cases hpk : p.1 = k'
      · simp only [dict_insert, if_pos hpk, dict_get?]
        rw [List.find?_cons_of_neg _ (by simp [hk]),
          List.find?_cons_of_neg _ (by simp [hpk ▸ hk])]
      · simp only [dict_insert, if_neg hpk, dict_get?] at ih ⊢
        by_cases hpkk : p.1 = k
        · rw [List.find?_cons_of_pos _ (by simp [hpkk]),
            List.find?_cons_of_pos _ (by simp [hpkk])]
        · rw [List.find?_cons_of_neg _ (by simp [hpkk]),
            List.find?_cons_of_neg _ (by simp [hpkk])]
          exact ih

theorem dict_get?_foldl_no_key (l : List Row) (m : List (Cell × Cell))
    (k : Cell) (h : ∀ r ∈ l, r.getD 0 none ≠ k) :
    dict_get?
        (l.foldl (fun m r => dict_insert m (r.getD 0 none) (r.getD 2 none)) m) k
      = dict_get? m k := by
  induction l generalizing m with
  | nil => rfl
  | cons r rest ih =>
      rw [List.foldl_cons]
      rw [ih _ (fun r' hr' => h r' (List.mem_cons_of_mem r hr'))]
      exact dict_get?_insert_other m k (r.getD 0 none) (r.getD 2 none)
        (h r (List.mem_cons_self r rest))

/-- C10: `load_processed_map` ignores rows with fewer than three cells;
when several ≥3-cell rows share a filename the cursor of the latest one
wins; and the two-cell row `[filename, marker]` that `log_to_sheets`
writes when `playlist_id` is absent never contributes a map entry. -/
theorem load_processed_map_spec (rows₁ rows₂ : List Row) (r : Row)
    (filename : String) (line : Cell) :
    (r.length < 3 → load_processed_map (rows₁ ++ [r]) = load_processed_map rows₁) ∧
      (3 ≤ r.length →
        (∀ r' ∈ rows₂, 3 ≤ r'.length → r'.getD 0 none ≠ r.getD 0 none) →
        dict_get? (load_processed_map (rows₁ ++ r :: rows₂)) (r.getD 0 none)
          = some (r.getD 2 none)) ∧
      (updated_row filename none line).length = 2 ∧
      load_processed_map (rows₁ ++ [updated_row filename none line])
        = load_processed_map rows₁ := by
  have hdrop : ∀ (r' : Row), r'.length < 3 →
      load_processed_map (rows₁ ++ [r']) = load_processed_map rows₁ := by
    intro r' hlen
    unfold load_processed_map
    rw [List.filter_append]
    have : [r'].filter (fun r => decide (3 ≤ r.length)) = [] := by
      simp [List.filter, Nat.not_le.mpr hlen]
    rw [this, List.append_nil]
  refine ⟨hdrop r, ?_, rfl, hdrop _ (by simp [updated_row])⟩
  intro hlen hkeys
  unfold load_processed_map
  rw [List.filter_append, List.filter_cons, if_pos (by simpa using hlen),
    List.foldl_append, List.foldl_cons]
  rw [dict_get?_foldl_no_key _ _ _
    (fun r' hr' => hkeys r' (List.mem_of_mem_filter hr')
      (by simpa using List.of_mem_filter hr'))]
  exact dict_get?_insert_same _ _ _

/-- Witness for C10: a short row is skipped, the later of two `f` rows
wins, and the playlist-id-less summary row adds no entry. -/
theorem load_processed_map_spec_witness :
    load_processed_map
          [[some "f", some "p", some "m1"], [some "f", some "x"]]
        = load_processed_map [[some "f", some "p", some "m1"]] ∧
      dict_get?
          (load_processed_map
            [[some "f", some "p", some "m1"], [some "f", some "q", some "m2"]])
          (some "f")
        = some (some "m2") ∧
      load_processed_map
          [[some "f", some "p", some "m1"], updated_row "f" none (some "m2")]
        = load_processed_map [[some "f", some "p", some "m1"]] := by
  have h1 := load_processed_map_spec [[some "f", some "p", some "m1"]] []
    [some "f", some "x"] "f" (some "m2")
  have h2 := load_processed_map_spec [[some "f", some "p", some "m1"]] []
    [some "f", some "q", some "m2"] "f" (some "m2")
  refine ⟨h1.1 (by decide), ?_, h2.2.2.2⟩
  have := h2.2.1 (by decide) (by intro r' hr'; simp at hr')
  simpa using this

/-! ## Best-effort result logging (`log_to_sheets`, C7) -/

/-- The spreadsheet state behind the four tabs of the logging sheet. -/
structure GState where
  info : List Row
  songs_added : List Row
  songs_not_found : List Row
  processed : List Row
deriving Repr, DecidableEq

/-- The logging monad: the external Sheets service can raise, and the
remote spreadsheet state persists across raised exceptions (an API call
already committed stays committed). -/
abbrev SheetsM := ExceptT String (StateM GState)

/-- Which Sheets API calls of one `log_to_sheets` invocation raise, plus
the externally-determined timestamp and the service-side sort order. -/
structure SheetsOracle where
  now : String
  ensure_fails : Bool
  info_append_fails : Bool
  songs_added_append_fails : Bool
  songs_not_found_append_fails : Bool
  processed_read_fails : Bool
  processed_write_fails : Bool
  processed_append_fails : Bool
  sort_fails : Bool
  sort_result : List Row → List Row

/-- A state-mutating Sheets call (`append_values` / `write_values` /
`sort_sheet`): raises per the oracle, else commits its effect. -/
def sheets_modify (fails : Bool) (f : GState → GState) : SheetsM Unit :=
  if fails then throw "HttpError" else modify f

/-- A reading Sheets call (`read_values`). -/
def sheets_read (fails : Bool) (f : GState → List Row) : SheetsM (List Row) :=
  if fails then throw "HttpError" else do
    let st ← get
    pure (f st)

/-- `try: ... except Exception as e: log.error(...)` — run the action;
absorb any raised exception and return normally, keeping every effect
committed before the raise. -/
def try_log (act : SheetsM Unit) : SheetsM Unit :=
  ExceptT.mk (do
    let res ← act.run
    match res with
    | Except.ok a => pure (Except.ok a)
    | Except.error _ => pure (Except.ok ()))

/-- Module-level `whitespace_buffer` global of sync.py (empty). -/
def whitespace_buffer : String := ""

/-- Embedding of `sync.py::log_info_sheet` in the all-fields-provided
shape used by `log_to_sheets`: `ensure_sheet_exists` runs un-caught,
the `append_values` of the Info row is caught. -/
def log_info_sheet (o : SheetsOracle)
    (message processed found unfound : String) : SheetsM Unit :=
  (if o.ensure_fails then throw "HttpError" else pure ()) >>= fun _ =>
  try_log (sheets_modify o.info_append_fails (fun st =>
    { st with info := st.info ++
        [[some o.now, some message, some processed, some found, some unfound]] }))

/-- Embedding of `sync.py::log_to_sheets` (lines 173-255): the Info row,
the two append-only logs, and the "Processed" upsert followed by the
sort, each guarded exactly as in the source. -/
def log_to_sheets (o : SheetsOracle) (date : String)
    (matched_songs : List (String × String)) (found_uris : List String)
    (unfound : List TrackRecord) (filename : String)
    (new_songs : List TrackRecord) (last_extvdj_line : Cell)
    (playlist_id : Option String) : SheetsM Unit :=
  log_info_sheet o
    ("🎶 Processed file: " ++ filename ++ whitespace_buffer)
    ("Processed rows: " ++ toString new_songs.length ++ whitespace_buffer)
    ("✅ Found tracks: " ++ toString found_uris.length ++ whitespace_buffer)
    ("❌ Unfound tracks: " ++ toString unfound.length ++ whitespace_buffer)
  >>= fun _ =>
  (let rows_to_append := matched_songs.map
      (fun p => ([some date, some p.2, some p.1] : Row))
   if rows_to_append ≠ [] then
     try_log (sheets_modify o.songs_added_append_fails (fun st =>
       { st with songs_added := st.songs_added ++ rows_to_append }))
   else pure ())
  >>= fun _ =>
  (let unfound_rows := unfound.map
      (fun r => ([some date, some r.title, some r.artist] : Row))
   if unfound_rows ≠ [] then
     try_log (sheets_modify o.songs_not_found_append_fails (fun st =>
       { st with songs_not_found := st.songs_not_found ++ unfound_rows }))
   else pure ())
  >>= fun _ =>
  try_log (do
    let all_rows ← sheets_read o.processed_read_fails (fun st => st.processed)
    let row := updated_row filename playlist_id
      (last_logged_extvdj_line new_songs last_extvdj_line)
    match all_rows.findIdx? (fun r => row_first_cell r = some filename) with
    | some i =>
        sheets_modify o.processed_write_fails (fun st =>
          { st with processed := st.processed.set i row })
    | none =>
        sheets_modify o.processed_append_fails (fun st =>
          { st with processed := st.processed ++ [row] })
    sheets_modify o.sort_fails (fun st =>
      { st with processed := o.sort_result st.processed }))

theorem run_try_log (act : SheetsM Unit) (st : GState) :
    ((try_log act).run.run st).1 = Except.ok () := by
  unfold try_log
  rcases h : act.run.run st with ⟨res, st'⟩
  simp only [ExceptT.run_mk, StateT.run_bind, h]
  cases res <;> rfl

theorem runs_ok_bind (a : SheetsM Unit) (b : Unit → SheetsM Unit)
    (ha : ∀ st, (a.run.run st).1 = Except.ok ())
    (hb : ∀ st, ((b ()).run.run st).1 = Except.ok ()) (st : GState) :
    ((a >>= b).run.run st).1 = Except.ok () := by
  rw [ExceptT.run_bind]
  rcases h : a.run.run st with ⟨res, st'⟩
  have hres := ha st
  rw [h] at hres
  simp only at hres
  subst hres
  simp only [StateT.run_bind, h]
  exact hb st'

/-- C7: `log_to_sheets` returns normally for every behaviour of the
Sheets service on its append, write, read and sort calls — every
raised exception from those calls is absorbed by a `try/except` block
(only the un-caught `ensure_sheet_exists` call is assumed to succeed). -/
theorem log_to_sheets_never_throws (o : SheetsOracle) (date : String)
    (matched_songs : List (String × String)) (found_uris : List String)
    (unfound : List TrackRecord) (filename : String)
    (new_songs : List TrackRecord) (last_extvdj_line : Cell)
    (playlist_id : Option String) (hensure : o.ensure_fails = false)
    (st : GState) :
    ((log_to_sheets o date matched_songs found_uris unfound filename
        new_songs last_extvdj_line playlist_id).run.run st).1 = Except.ok () := by
  unfold log_to_sheets
  apply runs_ok_bind
  · -- the Info-row logger
    intro st1
    unfold log_info_sheet
    rw [hensure]
    apply runs_ok_bind _ _ (by intro st2; rfl)
      (fun st2 => run_try_log _ st2)
  · intro st1
    apply runs_ok_bind
    · intro st2
      by_cases h :
        matched_songs.map (fun p => ([some date, some p.2, some p.1] : Row)) ≠ []
      · simp only [if_pos h]
        exact run_try_log _ st2
      · simp only [if_neg h]
        rfl
    · intro st2
      apply runs_ok_bind
      · intro st3
        by_cases h :
          unfound.map (fun r => ([some date, some r.title, some r.artist] : Row)) ≠ []
        · simp only [if_pos h]
          exact run_try_log _ st3
        · simp only [if_neg h]
          rfl
      · intro st3
        exact run_try_log _ st3

/-- Witness for C7: with every append, read, write and sort call set to
raise, `log_to_sheets` still returns normally. -/
theorem log_to_sheets_never_throws_witness :
    ((log_to_sheets
          ⟨"2023-01-01 00:00:00", false, true, true, true, true, true, true,
            true, id⟩
          "2023-01-01" [("a", "t")] ["u"] [⟨"b", "s", "m2"⟩] "f.m3u"
          [⟨"a", "t", "m1"⟩, ⟨"b", "s", "m2"⟩] (some "m0")
          (some "P")).run.run ⟨[], [], [], []⟩).1 = Except.ok () :=
  log_to_sheets_never_throws _ _ _ _ _ _ _ _ _ rfl _

end SpotifySync
